import Mathlib

/-!
Verification of the MedNote front-end speaker-heuristic core against its
specification.  The TypeScript source is embedded shallowly: numeric code is
modelled over exact rationals, JavaScript number edge cases (0/0 producing
NaN) over an explicit `JSNum` type, stateful callbacks as explicit state
passing, and host primitives (JSON parse/stringify, sqrt, log10) as function
parameters constrained by hypotheses.
-/

/-- Speaker labels, from the `SpeakerType` union in useVoiceAI / RecorderClean. -/
inductive SpeakerType where
  | doctor
  | patient
  | auto
deriving DecidableEq, Repr

/-- UI language, from the `"pt" | "en"` union used across the components. -/
inductive Lang where
  | pt
  | en
deriving DecidableEq, Repr

/-- The seven-field voice feature record of `VoiceProfile.features` in
useVoiceAI, polymorphic in the number type (exact rationals for the
classifier, `JSNum` for the extractor). -/
structure Features (α : Type) where
  avgPitch : α
  pitchVariance : α
  avgIntensity : α
  formantF1 : α
  formantF2 : α
  speechRate : α
  voiceQuality : α
deriving DecidableEq, Repr

/-- `calculateSimilarity` from useVoiceAI: a weighted sum of per-feature
closeness terms, with only the final sum clamped to the unit interval. -/
def calculateSimilarity (features1 features2 : Features ℚ) : ℚ :=
  let similarity : ℚ :=
    0.25 * (1 - |features1.avgPitch - features2.avgPitch| / 400)
    + 0.15 * (1 - |features1.pitchVariance - features2.pitchVariance| / 100)
    + 0.1 * (1 - |features1.avgIntensity - features2.avgIntensity| / 60)
    + 0.2 * (1 - |features1.formantF1 - features2.formantF1| / 1000)
    + 0.2 * (1 - |features1.formantF2 - features2.formantF2| / 2000)
    + 0.05 * (1 - |features1.speechRate - features2.speechRate| / 10)
    + 0.05 * (1 - |features1.voiceQuality - features2.voiceQuality|)
  max 0 (min 1 similarity)

/-- The seven feature fields in the order the source compares them. -/
def featureList (f : Features ℚ) : List ℚ :=
  [f.avgPitch, f.pitchVariance, f.avgIntensity, f.formantF1, f.formantF2,
   f.speechRate, f.voiceQuality]

/-- The fixed similarity weights of the specification. -/
def simWeights : List ℚ := [0.25, 0.15, 0.1, 0.2, 0.2, 0.05, 0.05]

/-- The fixed normalization scales of the specification. -/
def simScales : List ℚ := [400, 100, 60, 1000, 2000, 10, 1]

/-- Clamp a rational to the unit interval. -/
def clamp01 (x : ℚ) : ℚ := max 0 (min 1 x)

/-- Similarity as the claim words it: every term individually clamped below
at 0 before summing, and the final sum clamped to the unit interval. -/
def specSimilarityPerTermClamp (f1 f2 : Features ℚ) : ℚ :=
  clamp01 ((List.zipWith (fun (ws : ℚ × ℚ) (d : ℚ) => ws.1 * max 0 (1 - d / ws.2))
    (simWeights.zip simScales)
    (List.zipWith (fun a b => |a - b|) (featureList f1) (featureList f2))).sum)

/-- Similarity as the source actually computes it, presented in the
specification style: a weighted sum over weight/scale pairs with no
per-term clamping, with the final sum clamped to the unit interval. -/
def specSimilarityFinalClampOnly (f1 f2 : Features ℚ) : ℚ :=
  clamp01 ((List.zipWith (fun (ws : ℚ × ℚ) (d : ℚ) => ws.1 * (1 - d / ws.2))
    (simWeights.zip simScales)
    (List.zipWith (fun a b => |a - b|) (featureList f1) (featureList f2))).sum)

/-- The all-zero rational feature vector. -/
def featZero : Features ℚ := ⟨0, 0, 0, 0, 0, 0, 0⟩

/-- A feature vector whose pitch is far from zero, so that the pitch term of
the similarity sum is negative. -/
def featPitchFar : Features ℚ := ⟨800, 0, 0, 0, 0, 0, 0⟩

/-- C2 counterexample: the code does not clamp the individual terms at 0.
At these two vectors the pitch term is negative and drags the sum down to
0.5, while the per-term-clamped formula of the claim gives 0.75. -/
theorem C2_counterexample :
    calculateSimilarity featZero featPitchFar ≠
      specSimilarityPerTermClamp featZero featPitchFar := by
  norm_num [calculateSimilarity, specSimilarityPerTermClamp, clamp01, featZero,
    featPitchFar, featureList, simWeights, simScales, max_def, min_def]

/-- C2 (amended): the similarity is the weighted sum over the seven features
of weight_i * (1 - |f1_i - f2_i| / scale_i) with the stated weights and
scales, the terms not individually clamped, and the final sum clamped to
the unit interval. -/
theorem C2_similarity_formula (f1 f2 : Features ℚ) :
    calculateSimilarity f1 f2 = specSimilarityFinalClampOnly f1 f2 := by
  unfold calculateSimilarity specSimilarityFinalClampOnly clamp01 featureList
    simWeights simScales
  simp only [List.zip, List.zipWith, List.sum_cons, List.sum_nil]
  congr 1
  congr 1
  ring

/-- A stored voice profile, from the `VoiceProfile` interface in useVoiceAI. -/
structure VoiceProfile where
  id : String
  name : SpeakerType
  features : Features ℚ
  samples : Nat
deriving DecidableEq, Repr

/-- A classification outcome, from the `VoiceAnalysis` interface in useVoiceAI. -/
structure VoiceAnalysis where
  speaker : SpeakerType
  confidence : ℚ
  features : Features ℚ
deriving DecidableEq, Repr

/-- Lookup in the profile store, modelling `Map.get` on the `voiceProfiles`
map (an association list in insertion order). -/
def storeGet : List (SpeakerType × VoiceProfile) → SpeakerType → Option VoiceProfile
  | [], _ => none
  | (k, v) :: rest, key => if k = key then some v else storeGet rest key

/-- Insert-or-replace in the profile store, modelling `Map.set`: an existing
key keeps its position, a new key is appended. -/
def storeSet : List (SpeakerType × VoiceProfile) → SpeakerType → VoiceProfile →
    List (SpeakerType × VoiceProfile)
  | [], key, v => [(key, v)]
  | (k, w) :: rest, key, v =>
      if k = key then (key, v) :: rest else (k, w) :: storeSet rest key v

/-- The string key under which a profile is stored, from the `id: speakerType`
field in `learnVoice`. -/
def speakerKey : SpeakerType → String
  | .doctor => "doctor"
  | .patient => "patient"
  | .auto => "auto"

/-- The store update performed by `learnVoice` in useVoiceAI once the audio
snippet has been decoded and its features extracted.  Gated by the
`isLearning` flag; creates a fresh profile with one sample, or updates an
existing one with the 0.3/0.7 weighted average. -/
def learnVoice (isLearning : Bool) (profiles : List (SpeakerType × VoiceProfile))
    (speakerType : SpeakerType) (features : Features ℚ) :
    List (SpeakerType × VoiceProfile) :=
  if !isLearning then profiles else
  match storeGet profiles speakerType with
  | some existingProfile =>
      let weight : ℚ := 0.3
      let updatedFeatures : Features ℚ :=
        { avgPitch := existingProfile.features.avgPitch * (1 - weight)
            + features.avgPitch * weight
          pitchVariance := existingProfile.features.pitchVariance * (1 - weight)
            + features.pitchVariance * weight
          avgIntensity := existingProfile.features.avgIntensity * (1 - weight)
            + features.avgIntensity * weight
          formantF1 := existingProfile.features.formantF1 * (1 - weight)
            + features.formantF1 * weight
          formantF2 := existingProfile.features.formantF2 * (1 - weight)
            + features.formantF2 * weight
          speechRate := existingProfile.features.speechRate * (1 - weight)
            + features.speechRate * weight
          voiceQuality := existingProfile.features.voiceQuality * (1 - weight)
            + features.voiceQuality * weight }
      storeSet profiles speakerType
        { existingProfile with
            features := updatedFeatures
            samples := existingProfile.samples + 1 }
  | none =>
      storeSet profiles speakerType
        { id := speakerKey speakerType, name := speakerType,
          features := features, samples := 1 }

/-- The per-field average the specification promises: old times 0.7 plus new
times 0.3. -/
def specBlend (old new : Features ℚ) : Features ℚ :=
  { avgPitch := old.avgPitch * 0.7 + new.avgPitch * 0.3
    pitchVariance := old.pitchVariance * 0.7 + new.pitchVariance * 0.3
    avgIntensity := old.avgIntensity * 0.7 + new.avgIntensity * 0.3
    formantF1 := old.formantF1 * 0.7 + new.formantF1 * 0.3
    formantF2 := old.formantF2 * 0.7 + new.formantF2 * 0.3
    speechRate := old.speechRate * 0.7 + new.speechRate * 0.3
    voiceQuality := old.voiceQuality * 0.7 + new.voiceQuality * 0.3 }

lemma storeGet_storeSet_self :
    ∀ (m : List (SpeakerType × VoiceProfile)) (key : SpeakerType) (v : VoiceProfile),
      storeGet (storeSet m key v) key = some v
  | [], key, v => by simp [storeSet, storeGet]
  | (k, w) :: rest, key, v => by
      by_cases h : k = key
      · simp [storeSet, h, storeGet]
      · simp [storeSet, h, storeGet, storeGet_storeSet_self rest key v]

lemma storeGet_storeSet_ne :
    ∀ (m : List (SpeakerType × VoiceProfile)) (key k : SpeakerType) (v : VoiceProfile),
      k ≠ key → storeGet (storeSet m key v) k = storeGet m k
  | [], key, k, v, h => by simp [storeSet, storeGet, Ne.symm h]
  | (k2, w) :: rest, key, k, v, h => by
      by_cases h2 : k2 = key
      · subst h2
        simp [storeSet, storeGet, Ne.symm h]
      · by_cases h3 : k2 = k
        · simp [storeSet, storeGet, h2, h3, h]
        · simp [storeSet, storeGet, h2, h3, storeGet_storeSet_ne rest key k v h]

/-- C5: a learn call with learning enabled and a successfully extracted
feature vector creates a fresh profile with one sample when the label is
new, otherwise replaces each feature field by old * 0.7 + new * 0.3 and
increments the sample count by one, leaving every other label's entry
untouched. -/
theorem C5_learn_update (profiles : List (SpeakerType × VoiceProfile))
    (speakerType : SpeakerType) (f : Features ℚ) :
    (storeGet profiles speakerType = none →
      storeGet (learnVoice true profiles speakerType f) speakerType
        = some ⟨speakerKey speakerType, speakerType, f, 1⟩) ∧
    (∀ p, storeGet profiles speakerType = some p →
      storeGet (learnVoice true profiles speakerType f) speakerType
        = some ⟨p.id, p.name, specBlend p.features f, p.samples + 1⟩) ∧
    (∀ k, k ≠ speakerType →
      storeGet (learnVoice true profiles speakerType f) k = storeGet profiles k) := by
  refine ⟨fun hnone => ?_, fun p hsome => ?_, fun k hk => ?_⟩
  · rw [learnVoice]
    simp only [Bool.not_true, Bool.false_eq_true, if_false, hnone]
    exact storeGet_storeSet_self profiles speakerType _
  · rw [learnVoice]
    simp only [Bool.not_true, Bool.false_eq_true, if_false, hsome]
    rw [storeGet_storeSet_self profiles speakerType _]
    have hfeat :
        ({ avgPitch := p.features.avgPitch * (1 - 0.3) + f.avgPitch * 0.3
           pitchVariance := p.features.pitchVariance * (1 - 0.3) + f.pitchVariance * 0.3
           avgIntensity := p.features.avgIntensity * (1 - 0.3) + f.avgIntensity * 0.3
           formantF1 := p.features.formantF1 * (1 - 0.3) + f.formantF1 * 0.3
           formantF2 := p.features.formantF2 * (1 - 0.3) + f.formantF2 * 0.3
           speechRate := p.features.speechRate * (1 - 0.3) + f.speechRate * 0.3
           voiceQuality := p.features.voiceQuality * (1 - 0.3) + f.voiceQuality * 0.3 }
          : Features ℚ) = specBlend p.features f := by
      unfold specBlend
      norm_num
    rw [hfeat]
  · rw [learnVoice]
    simp only [Bool.not_true, Bool.false_eq_true, if_false]
    cases storeGet profiles speakerType with
    | none => exact storeGet_storeSet_ne profiles speakerType k _ hk
    | some p => exact storeGet_storeSet_ne profiles speakerType k _ hk

/-- A profile whose pitch is far enough from zero that its similarity with
the all-zero vector clamps to 0. -/
def profFar : VoiceProfile :=
  ⟨"doctor", SpeakerType.doctor, ⟨10000, 0, 0, 0, 0, 0, 0⟩, 1⟩

/-- The body of the best-match fold in `identifySpeaker`: keep the candidate
whose similarity strictly exceeds the best seen so far. -/
def bestStep (f : Features ℚ) (best : SpeakerType × ℚ) (profile : VoiceProfile) :
    SpeakerType × ℚ :=
  let similarity := calculateSimilarity f profile.features
  if similarity > best.2 then (profile.name, similarity) else best

/-- `identifySpeaker` from useVoiceAI, after the audio has been decoded and
its features extracted: an empty store yields the doctor cold-start answer,
otherwise the best-similarity profile is compared against the 0.4
threshold. -/
def identifySpeaker (profiles : List VoiceProfile) (features : Features ℚ) :
    VoiceAnalysis :=
  if profiles.isEmpty then
    { speaker := .doctor, confidence := 0.7, features := features }
  else
    let bestMatch := profiles.foldl (bestStep features) (SpeakerType.auto, 0)
    let identifiedSpeaker := if bestMatch.2 > 0.4 then bestMatch.1 else SpeakerType.auto
    { speaker := identifiedSpeaker, confidence := bestMatch.2, features := features }

lemma calculateSimilarity_nonneg (f1 f2 : Features ℚ) :
    0 ≤ calculateSimilarity f1 f2 :=
  le_max_left _ _

lemma bestStep_snd (f : Features ℚ) (best : SpeakerType × ℚ) (p : VoiceProfile) :
    (bestStep f best p).2 = max best.2 (calculateSimilarity f p.features) := by
  by_cases h : calculateSimilarity f p.features > best.2
  · simp [bestStep, h, max_eq_right h.le]
  · simp [bestStep, h, max_eq_left (not_lt.mp h)]

lemma foldl_bestStep_snd (f : Features ℚ) :
    ∀ (l : List VoiceProfile) (acc : SpeakerType × ℚ),
      (l.foldl (bestStep f) acc).2
        = (l.map (fun p => calculateSimilarity f p.features)).foldl max acc.2
  | [], _ => rfl
  | p :: l, acc => by
      rw [List.foldl_cons, List.map_cons, List.foldl_cons,
        foldl_bestStep_snd f l (bestStep f acc p), bestStep_snd]

lemma foldl_bestStep_fst (f : Features ℚ) :
    ∀ (l : List VoiceProfile) (acc : SpeakerType × ℚ),
      l.foldl (bestStep f) acc = acc ∨
        ∃ p ∈ l, (l.foldl (bestStep f) acc).1 = p.name ∧
          (l.foldl (bestStep f) acc).2 = calculateSimilarity f p.features
  | [], _ => Or.inl rfl
  | p :: l, acc => by
      rw [List.foldl_cons]
      rcases foldl_bestStep_fst f l (bestStep f acc p) with h | ⟨q, hq, h1, h2⟩
      · rw [h]
        by_cases hc : calculateSimilarity f p.features > acc.2
        · exact Or.inr ⟨p, List.mem_cons_self p l,
            by simp [bestStep, hc], by simp [bestStep, hc]⟩
        · exact Or.inl (by simp [bestStep, hc])
      · exact Or.inr ⟨q, List.mem_cons_of_mem p hq, h1, h2⟩

lemma foldl_max_init : ∀ (l : List ℚ) (a : ℚ), a ≤ l.foldl max a
  | [], a => le_refl a
  | x :: l, a => le_trans (le_max_left a x) (foldl_max_init l (max a x))

lemma foldl_max_le_of_mem : ∀ (l : List ℚ) (a x : ℚ), x ∈ l → x ≤ l.foldl max a
  | [], _, _, h => absurd h (List.not_mem_nil _)
  | y :: l, a, x, h => by
      rcases List.mem_cons.mp h with rfl | h2
      · exact le_trans (le_max_right a x) (foldl_max_init l (max a x))
      · exact foldl_max_le_of_mem l (max a y) x h2

lemma foldl_max_mem : ∀ (l : List ℚ) (a : ℚ), l.foldl max a = a ∨ l.foldl max a ∈ l
  | [], _ => Or.inl rfl
  | x :: l, a => by
      rcases foldl_max_mem l (max a x) with h | h
      · rw [List.foldl_cons, h]
        rcases max_choice a x with h1 | h1
        · exact Or.inl h1
        · exact Or.inr (by rw [h1]; exact List.mem_cons_self x l)
      · exact Or.inr (List.mem_cons_of_mem x h)

lemma foldl_max_zero_mem (l : List ℚ) (hne : l ≠ []) (hpos : ∀ x ∈ l, 0 ≤ x) :
    l.foldl max 0 ∈ l := by
  rcases foldl_max_mem l 0 with h | h
  · cases l with
    | nil => exact absurd rfl hne
    | cons x l =>
        have hx1 : x ≤ (x :: l).foldl max 0 :=
          foldl_max_le_of_mem (x :: l) 0 x (List.mem_cons_self x l)
        have hx0 : x = 0 := le_antisymm (h ▸ hx1) (hpos x (List.mem_cons_self x l))
        rw [h, hx0]
        exact List.mem_cons_self 0 l
  · exact h

/-- C7: with an empty profile store, classification of any successfully
extracted feature vector returns speaker doctor with confidence 0.7. -/
theorem C7_cold_start (f : Features ℚ) :
    identifySpeaker [] f = ⟨SpeakerType.doctor, 0.7, f⟩ := rfl

/-- C8: with a non-empty store the confidence is always the maximum
similarity over the stored profiles (which is attained by some profile);
when that maximum does not exceed 0.4 the speaker is the unknown label
auto, and when it exceeds 0.4 the speaker is the label of a profile
attaining the maximum. -/
theorem C8_threshold (profiles : List VoiceProfile) (f : Features ℚ)
    (hne : profiles ≠ []) :
    (∃ p ∈ profiles, calculateSimilarity f p.features
        = (profiles.map (fun p => calculateSimilarity f p.features)).foldl max 0) ∧
    (∀ p ∈ profiles, calculateSimilarity f p.features
        ≤ (profiles.map (fun p => calculateSimilarity f p.features)).foldl max 0) ∧
    ((profiles.map (fun p => calculateSimilarity f p.features)).foldl max 0 ≤ 0.4 →
      identifySpeaker profiles f
        = ⟨SpeakerType.auto,
            (profiles.map (fun p => calculateSimilarity f p.features)).foldl max 0, f⟩) ∧
    (0.4 < (profiles.map (fun p => calculateSimilarity f p.features)).foldl max 0 →
      ∃ p ∈ profiles, calculateSimilarity f p.features
          = (profiles.map (fun p => calculateSimilarity f p.features)).foldl max 0 ∧
        identifySpeaker profiles f
          = ⟨p.name,
              (profiles.map (fun p => calculateSimilarity f p.features)).foldl max 0, f⟩) := by
  have hemp : profiles.isEmpty = false := by
    cases profiles with
    | nil => exact absurd rfl hne
    | cons p l => rfl
  have hsnd : (profiles.foldl (bestStep f) (SpeakerType.auto, 0)).2
      = (profiles.map (fun p => calculateSimilarity f p.features)).foldl max 0 :=
    foldl_bestStep_snd f profiles (SpeakerType.auto, 0)
  have hmapne : profiles.map (fun p => calculateSimilarity f p.features) ≠ [] :=
    fun hmap => hne (by simpa using hmap)
  have hpos : ∀ x ∈ profiles.map (fun p => calculateSimilarity f p.features), 0 ≤ x := by
    intro x hx
    rcases List.mem_map.mp hx with ⟨p, hp, rfl⟩
    exact calculateSimilarity_nonneg f p.features
  refine ⟨?_, ?_, ?_, ?_⟩
  · rcases List.mem_map.mp (foldl_max_zero_mem _ hmapne hpos) with ⟨p, hp, hval⟩
    exact ⟨p, hp, hval⟩
  · intro p hp
    exact foldl_max_le_of_mem _ 0 _ (List.mem_map_of_mem _ hp)
  · intro hle
    unfold identifySpeaker
    rw [hemp]
    simp only [Bool.false_eq_true, if_false, hsnd]
    rw [if_neg (not_lt.mpr hle)]
  · intro hgt
    rcases foldl_bestStep_fst f profiles (SpeakerType.auto, 0) with h | ⟨p, hp, h1, h2⟩
    · rw [h] at hsnd
      rw [← hsnd] at hgt
      norm_num at hgt
    · refine ⟨p, hp, by rw [← h2, hsnd], ?_⟩
      unfold identifySpeaker
      rw [hemp]
      simp only [Bool.false_eq_true, if_false, hsnd, h1]
      rw [if_pos hgt]

/-- Strip leading whitespace characters from a character list. -/
def dropLeadingWS : List Char → List Char
  | [] => []
  | c :: cs => if c.isWhitespace then dropLeadingWS cs else c :: cs

/-- Whitespace stripping from both ends, modelling the JavaScript
`String.prototype.trim` host primitive the recorder calls on recognition
results and on the patient name. -/
def jsTrim (s : String) : String :=
  ⟨dropLeadingWS (dropLeadingWS s.data.reverse).reverse⟩

/-- `getSpeakerPrefix` from RecorderClean (the video-call capture component
carries an identical copy): localized doctor prefix, patient prefix
preferring the trimmed typed name, robot marker for auto. -/
def getSpeakerPrefix (speaker : SpeakerType) (patientName : String)
    (language : Lang) : String :=
  match speaker with
  | .doctor => if language = .pt then "Médico: " else "Doctor: "
  | .patient =>
      let name :=
        if jsTrim patientName = "" then
          (if language = .pt then "Paciente" else "Patient")
        else jsTrim patientName
      name ++ ": "
  | .auto => "🤖 "

/-- The callback state of the alternation labeler in `rec.onresult` of
RecorderClean (mirrored in the video-call capture handler): the utterance
counter, the duplicate-suppression guard and the append-only finalized
buffer. -/
structure RecState where
  speechCount : Nat
  lastTranscript : String
  finalBuf : String
deriving DecidableEq, Repr

/-- The state at the start of a recording session. -/
def initRecState : RecState := ⟨0, "", ""⟩

/-- The final-result branch of one `rec.onresult` callback: an empty
aggregate is skipped, a duplicate of the last committed trimmed text is
discarded, and otherwise the result is labeled by counter parity, the
counter incremented, and the prefixed line appended.  Returns the new state
together with the label assigned (none when the result was discarded). -/
def recStep (patientName : String) (language : Lang) (s : RecState)
    (finalTranscript : String) : RecState × Option SpeakerType :=
  if finalTranscript = "" then (s, none)
  else
    let trimmedText := jsTrim finalTranscript
    if trimmedText = s.lastTranscript then (s, none)
    else
      let speakerType : SpeakerType :=
        if s.speechCount % 2 = 0 then .doctor else .patient
      let speakerPrefix := getSpeakerPrefix speakerType patientName language
      (⟨s.speechCount + 1, trimmedText,
        s.finalBuf ++ speakerPrefix ++ trimmedText ++ "\n"⟩, some speakerType)

/-- A whole recording session: process the finalized results in arrival
order, collecting the label assigned to each. -/
def recRun (patientName : String) (language : Lang) (s : RecState) :
    List String → RecState × List (Option SpeakerType)
  | [] => (s, [])
  | t :: ts =>
      let step := recStep patientName language s t
      let rest := recRun patientName language step.1 ts
      (rest.1, step.2 :: rest.2)

lemma recStep_accept (pn : String) (lang : Lang) (s : RecState) (t : String)
    (ht : t ≠ "") (hfresh : jsTrim t ≠ s.lastTranscript) :
    recStep pn lang s t
      = (⟨s.speechCount + 1, jsTrim t,
          s.finalBuf
            ++ getSpeakerPrefix
                (if s.speechCount % 2 = 0 then .doctor else .patient) pn lang
            ++ jsTrim t ++ "\n"⟩,
         some (if s.speechCount % 2 = 0 then SpeakerType.doctor
           else SpeakerType.patient)) := by
  simp [recStep, ht, hfresh]

lemma recRun_accepts (pn : String) (lang : Lang) :
    ∀ (texts : List String) (c : Nat) (last buf : String),
      (∀ t ∈ texts, jsTrim t ≠ "") →
      (texts.map jsTrim).Nodup →
      last ∉ texts.map jsTrim →
      (recRun pn lang ⟨c, last, buf⟩ texts).2
          = (List.range texts.length).map
              (fun i => some (if (c + i) % 2 = 0 then SpeakerType.doctor
                else SpeakerType.patient))
        ∧ (recRun pn lang ⟨c, last, buf⟩ texts).1.speechCount = c + texts.length
  | [], c, last, buf, _, _, _ => by simp [recRun]
  | t :: ts, c, last, buf, hne, hnd, hlast => by
      have ht : jsTrim t ≠ "" := hne t (List.mem_cons_self t ts)
      have htraw : t ≠ "" := fun h => ht (by rw [h]; rfl)
      have hne2 : jsTrim t ≠ last := fun h =>
        hlast (h ▸ List.mem_map_of_mem jsTrim (List.mem_cons_self t ts))
      have hmap : (t :: ts).map jsTrim = jsTrim t :: ts.map jsTrim := rfl
      rw [hmap] at hnd
      rcases List.nodup_cons.mp hnd with ⟨hnotin, hnd2⟩
      obtain ⟨ih1, ih2⟩ := recRun_accepts pn lang ts (c + 1) (jsTrim t)
        (buf ++ getSpeakerPrefix
          (if c % 2 = 0 then .doctor else .patient) pn lang ++ jsTrim t ++ "\n")
        (fun u hu => hne u (List.mem_cons_of_mem t hu)) hnd2 hnotin
      have hstep := recStep_accept pn lang ⟨c, last, buf⟩ t htraw hne2
      constructor
      · show (recRun pn lang ⟨c, last, buf⟩ (t :: ts)).2 = _
        rw [recRun]
        simp only [hstep]
        rw [ih1, List.length_cons, List.range_succ_eq_map, List.map_cons,
          List.map_map]
        refine congrArg₂ List.cons (by simp) ?_
        refine List.map_congr_left ?_
        intro i _
        have harith : c + 1 + i = c + Nat.succ i := by omega
        simp [Function.comp, harith]
      · show (recRun pn lang ⟨c, last, buf⟩ (t :: ts)).1.speechCount = _
        rw [recRun]
        simp only [hstep]
        rw [ih2, List.length_cons]
        omega

/-- C1: over a session started from the initial recorder state, processing
a sequence of finalized results that are pairwise distinct after trimming
(and not whitespace-only) assigns doctor to every even-indexed result and
patient to every odd-indexed result, independent of any classifier state,
and increments the utterance counter exactly once per result. -/
theorem C1_alternation (pn : String) (lang : Lang) (texts : List String)
    (h1 : ∀ t ∈ texts, jsTrim t ≠ "")
    (h2 : (texts.map jsTrim).Nodup) :
    (recRun pn lang initRecState texts).2
        = (List.range texts.length).map
            (fun i => some (if i % 2 = 0 then SpeakerType.doctor
              else SpeakerType.patient))
      ∧ (recRun pn lang initRecState texts).1.speechCount = texts.length := by
  have hlast : "" ∉ texts.map jsTrim := by
    intro hmem
    rcases List.mem_map.mp hmem with ⟨t, ht, htrim⟩
    exact h1 t ht htrim
  have h := recRun_accepts pn lang texts 0 "" "" h1 h2 hlast
  simpa using h

theorem C1_alternation_witness :
    ((∀ t ∈ ["a", "b"], jsTrim t ≠ "") ∧ ((["a", "b"].map jsTrim).Nodup)) ∧
    ((recRun "x" .pt initRecState ["a", "b"]).2
        = (List.range (["a", "b"] : List String).length).map
            (fun i => some (if i % 2 = 0 then SpeakerType.doctor
              else SpeakerType.patient))
      ∧ (recRun "x" .pt initRecState ["a", "b"]).1.speechCount
          = (["a", "b"] : List String).length) :=
  ⟨⟨by decide, by decide⟩, C1_alternation "x" .pt ["a", "b"] (by decide) (by decide)⟩

/-- C6: a finalized result whose trimmed text equals the last committed
trimmed text is discarded: after one committed result, resubmitting any
text with the same trim leaves the state unchanged and assigns no label, so
the two submissions together append exactly one line and advance the
counter exactly once. -/
theorem C6_duplicate_suppression (pn : String) (lang : Lang) (s : RecState)
    (t u : String) (ht : t ≠ "") (hu : u ≠ "")
    (hfresh : jsTrim t ≠ s.lastTranscript) (hdup : jsTrim u = jsTrim t) :
    recStep pn lang (recStep pn lang s t).1 u = ((recStep pn lang s t).1, none) ∧
    (recStep pn lang s t).1.finalBuf
      = s.finalBuf
        ++ getSpeakerPrefix
            (if s.speechCount % 2 = 0 then .doctor else .patient) pn lang
        ++ jsTrim t ++ "\n" ∧
    (recStep pn lang s t).1.speechCount = s.speechCount + 1 := by
  have hstep := recStep_accept pn lang s t ht hfresh
  refine ⟨?_, ?_, ?_⟩
  · rw [hstep]
    simp [recStep, hu, hdup]
  · rw [hstep]
  · rw [hstep]

theorem C6_duplicate_suppression_witness :
    ("hi" ≠ "" ∧ jsTrim "hi" ≠ initRecState.lastTranscript ∧
      jsTrim "hi" = jsTrim "hi") ∧
    (recStep "x" .en (recStep "x" .en initRecState "hi").1 "hi"
        = ((recStep "x" .en initRecState "hi").1, none) ∧
      (recStep "x" .en initRecState "hi").1.finalBuf
        = initRecState.finalBuf
          ++ getSpeakerPrefix
              (if initRecState.speechCount % 2 = 0 then .doctor else .patient)
              "x" .en
          ++ jsTrim "hi" ++ "\n" ∧
      (recStep "x" .en initRecState "hi").1.speechCount
        = initRecState.speechCount + 1) :=
  ⟨⟨by decide, by decide, rfl⟩,
    C6_duplicate_suppression "x" .en initRecState "hi" "hi"
      (by decide) (by decide) (by decide) rfl⟩

theorem C8_threshold_witness :
    [profFar] ≠ ([] : List VoiceProfile) ∧
    identifySpeaker [profFar] featZero
      = ⟨SpeakerType.auto,
          ([profFar].map (fun p => calculateSimilarity featZero p.features)).foldl max 0,
          featZero⟩ :=
  ⟨by simp,
    (C8_threshold [profFar] featZero (by simp)).2.2.1
      (by norm_num [profFar, featZero, calculateSimilarity, max_def, min_def])⟩

theorem C5_learn_update_witness :
    (storeGet ([] : List (SpeakerType × VoiceProfile)) .doctor = none ∧
      storeGet (learnVoice true [] .doctor featZero) .doctor
        = some ⟨"doctor", .doctor, featZero, 1⟩) ∧
    (storeGet (learnVoice true [(SpeakerType.doctor, profFar)] .doctor featZero) .doctor
        = some ⟨profFar.id, profFar.name, specBlend profFar.features featZero,
            profFar.samples + 1⟩) ∧
    (storeGet (learnVoice true [(SpeakerType.doctor, profFar)] .doctor featZero) .patient
        = storeGet [(SpeakerType.doctor, profFar)] .patient) :=
  ⟨⟨rfl, (C5_learn_update [] .doctor featZero).1 rfl⟩,
    (C5_learn_update [(SpeakerType.doctor, profFar)] .doctor featZero).2.1 profFar rfl,
    (C5_learn_update [(SpeakerType.doctor, profFar)] .doctor featZero).2.2 .patient
      (by decide)⟩

/-- The structured diagnosis payload, from `DiagnosisResponse` in lib/types. -/
structure DiagnosisResponse where
  diagnosis : String
  conditions : List String
  exams : List String
  medications : List String
  explanation : Option String
  language : Lang
deriving DecidableEq, Repr

/-- The observable outcome of one finalize action: how many blocking
fallback requests were issued and the results persisted through
`saveAndReset`. -/
structure FinalizeOutcome where
  fallbackCalls : Nat
  persisted : List DiagnosisResponse
deriving DecidableEq, Repr

/-- The control flow of `onFinalize` in DiagnoseView, collapsed to the
decision made when the 8-second timer fires: an empty trimmed transcript is
a no-op; a synchronous stream-setup failure goes straight to the fallback;
otherwise a non-empty accumulated buffer is parsed (the `parse` parameter
models `JSON.parse`, none meaning it throws) and on success that result is
persisted with no fallback, while an empty or unparseable buffer issues the
single blocking fallback request whose response is persisted. -/
def onFinalize (transcript : String) (streamOk : Bool) (accumulatedData : String)
    (parse : String → Option DiagnosisResponse)
    (fallbackResult : DiagnosisResponse) : FinalizeOutcome :=
  if jsTrim transcript = "" then ⟨0, []⟩
  else if streamOk = false then ⟨1, [fallbackResult]⟩
  else if accumulatedData ≠ "" then
    match parse accumulatedData with
    | some parsedResult => ⟨0, [parsedResult]⟩
    | none => ⟨1, [fallbackResult]⟩
  else ⟨1, [fallbackResult]⟩

/-- C3: for a finalize action on a non-empty transcript whose stream setup
succeeds, a buffer that parses at the timeout is persisted with no fallback
request, while an empty or unparseable buffer leads to exactly one fallback
request whose response is persisted; in every case exactly one result is
persisted (assuming the chosen path succeeds, as the claim does). -/
theorem C3_reconciliation (transcript accumulatedData : String)
    (parse : String → Option DiagnosisResponse)
    (fallbackResult : DiagnosisResponse)
    (htr : jsTrim transcript ≠ "") (hp : parse "" = none) :
    (∀ r, parse accumulatedData = some r →
        onFinalize transcript true accumulatedData parse fallbackResult
          = ⟨0, [r]⟩) ∧
    (parse accumulatedData = none →
        onFinalize transcript true accumulatedData parse fallbackResult
          = ⟨1, [fallbackResult]⟩) ∧
    (onFinalize transcript true accumulatedData parse
        fallbackResult).persisted.length = 1 := by
  unfold onFinalize
  rw [if_neg htr]
  by_cases hacc : accumulatedData = ""
  · subst hacc
    simp [hp]
  · cases hpa : parse accumulatedData with
    | none => simp [hacc, hpa]
    | some r =>
        refine ⟨?_, ?_, ?_⟩
        · intro r0 hr0
          cases hr0
          simp [hacc]
        · intro hnone
          cases hnone
        · simp [hacc]

/-- A concrete parse stub for witnesses: accepts exactly one payload. -/
def parseDiagW : String → Option DiagnosisResponse := fun s =>
  if s = "ok" then some ⟨"flu", [], [], [], none, .en⟩ else none

theorem C3_reconciliation_witness :
    (jsTrim "Doctor: hi" ≠ "" ∧ parseDiagW "" = none) ∧
    (parseDiagW "ok" = some ⟨"flu", [], [], [], none, .en⟩ →
      onFinalize "Doctor: hi" true "ok" parseDiagW
          ⟨"fb", [], [], [], none, .en⟩
        = ⟨0, [⟨"flu", [], [], [], none, .en⟩]⟩) :=
  ⟨⟨by decide, by decide⟩,
    (C3_reconciliation "Doctor: hi" "ok" parseDiagW ⟨"fb", [], [], [], none, .en⟩
      (by decide) (by decide)).1 ⟨"flu", [], [], [], none, .en⟩⟩

/-- A JSON-shaped value, the result type of the `JSON.parse` host primitive
used by the history module. -/
inductive JsValue where
  | null
  | bool (b : Bool)
  | num (q : ℚ)
  | str (s : String)
  | arr (elems : List JsValue)
  | obj (fields : List (String × JsValue))

/-- `loadHistory` from lib/history: read the persisted payload (none models
an absent key), substitute the literal empty-array text for an absent or
empty payload, and return the parsed value, or the empty array when parsing
throws (the catch branch).  `parse` models `JSON.parse`, none meaning it
throws. -/
def loadHistory (parse : String → Option JsValue) (store : Option String) :
    JsValue :=
  let raw :=
    match store with
    | none => "[]"
    | some s => if s = "" then "[]" else s
  match parse raw with
  | some v => v
  | none => JsValue.arr []

/-- `saveHistoryItem` from lib/history: load the current list, unshift the
new item, and persist the stringified result.  Returns the new payload, or
none when the loaded value is not an array (the `unshift` call would throw).
`stringify` models `JSON.stringify`. -/
def saveHistoryItem (parse : String → Option JsValue)
    (stringify : JsValue → String) (store : Option String) (item : JsValue) :
    Option (Option String) :=
  match loadHistory parse store with
  | JsValue.arr l => some (some (stringify (JsValue.arr (item :: l))))
  | _ => none

/-- `clearHistory` from lib/history: remove the persisted key. -/
def clearHistory (_ : Option String) : Option String := none

/-- C9: clearing then loading yields the empty sequence, and appending an
item to a state that loads as a list yields a payload that loads as that
item followed by the previously stored items in their prior order, given
that `JSON.parse` inverts `JSON.stringify` on the stored list. -/
theorem C9_history_roundtrip (parse : String → Option JsValue)
    (stringify : JsValue → String) (store : Option String)
    (prev : List JsValue) (item : JsValue)
    (hp : parse "[]" = some (JsValue.arr []))
    (hload : loadHistory parse store = JsValue.arr prev)
    (hne : stringify (JsValue.arr (item :: prev)) ≠ "")
    (hrt : parse (stringify (JsValue.arr (item :: prev)))
      = some (JsValue.arr (item :: prev))) :
    loadHistory parse (clearHistory store) = JsValue.arr [] ∧
    saveHistoryItem parse stringify store item
      = some (some (stringify (JsValue.arr (item :: prev)))) ∧
    loadHistory parse (some (stringify (JsValue.arr (item :: prev))))
      = JsValue.arr (item :: prev) := by
  refine ⟨?_, ?_, ?_⟩
  · simp [loadHistory, clearHistory, hp]
  · simp [saveHistoryItem, hload]
  · simp [loadHistory, hne, hrt]

/-- A concrete parse stub for the history witnesses. -/
def parseJsonW : String → Option JsValue := fun s =>
  if s = "[]" then some (JsValue.arr [])
  else if s = "[null]" then some (JsValue.arr [JsValue.null])
  else none

/-- A concrete stringify stub matching `parseJsonW` on the one list the
witness stores. -/
def stringifyJsonW : JsValue → String := fun _ => "[null]"

theorem C9_history_roundtrip_witness :
    (parseJsonW "[]" = some (JsValue.arr []) ∧
      loadHistory parseJsonW none = JsValue.arr [] ∧
      stringifyJsonW (JsValue.arr [JsValue.null]) ≠ "" ∧
      parseJsonW (stringifyJsonW (JsValue.arr [JsValue.null]))
        = some (JsValue.arr [JsValue.null])) ∧
    (loadHistory parseJsonW (clearHistory none) = JsValue.arr [] ∧
      saveHistoryItem parseJsonW stringifyJsonW none JsValue.null
        = some (some (stringifyJsonW (JsValue.arr [JsValue.null]))) ∧
      loadHistory parseJsonW (some (stringifyJsonW (JsValue.arr [JsValue.null])))
        = JsValue.arr [JsValue.null]) :=
  ⟨⟨rfl, rfl, by simp [stringifyJsonW], rfl⟩,
    C9_history_roundtrip parseJsonW stringifyJsonW none [] JsValue.null
      rfl rfl (by simp [stringifyJsonW]) rfl⟩

/-- C10: loading is total over the persisted payload; an absent payload, an
empty payload, and a payload on which `JSON.parse` throws all yield the
empty list. -/
theorem C10_load_total (parse : String → Option JsValue) (store : Option String)
    (hp : parse "[]" = some (JsValue.arr [])) :
    (store = none → loadHistory parse store = JsValue.arr []) ∧
    (loadHistory parse (some "") = JsValue.arr []) ∧
    (∀ s, s ≠ "" → parse s = none →
      loadHistory parse (some s) = JsValue.arr []) := by
  refine ⟨fun h => ?_, ?_, fun s hs hparse => ?_⟩
  · subst h
    simp [loadHistory, hp]
  · simp [loadHistory, hp]
  · simp [loadHistory, hs, hparse]

theorem C10_load_total_witness :
    (parseJsonW "[]" = some (JsValue.arr [])) ∧
    (loadHistory parseJsonW (some "broken json") = JsValue.arr []) :=
  ⟨rfl,
    (C10_load_total parseJsonW (some "broken json") rfl).2.2 "broken json"
      (by decide) rfl⟩

/-- A JavaScript number as this code can produce it: an exact rational, a
signed infinity, or NaN. -/
inductive JSNum where
  | num (q : ℚ)
  | posInf
  | negInf
  | nan
deriving DecidableEq, Repr

/-- JavaScript addition on `JSNum`. -/
def jadd : JSNum → JSNum → JSNum
  | .num a, .num b => .num (a + b)
  | .num _, .posInf => .posInf
  | .posInf, .num _ => .posInf
  | .num _, .negInf => .negInf
  | .negInf, .num _ => .negInf
  | .posInf, .posInf => .posInf
  | .negInf, .negInf => .negInf
  | _, _ => .nan

/-- JavaScript multiplication on `JSNum`. -/
def jmul : JSNum → JSNum → JSNum
  | .num a, .num b => .num (a * b)
  | .num a, .posInf => if a = 0 then .nan else if 0 < a then .posInf else .negInf
  | .posInf, .num a => if a = 0 then .nan else if 0 < a then .posInf else .negInf
  | .num a, .negInf => if a = 0 then .nan else if 0 < a then .negInf else .posInf
  | .negInf, .num a => if a = 0 then .nan else if 0 < a then .negInf else .posInf
  | .posInf, .posInf => .posInf
  | .negInf, .negInf => .posInf
  | .posInf, .negInf => .negInf
  | .negInf, .posInf => .negInf
  | _, _ => .nan

/-- JavaScript division on `JSNum`: zero divided by zero is NaN, a nonzero
numerator over zero is a signed infinity. -/
def jdiv : JSNum → JSNum → JSNum
  | .num a, .num b =>
      if b = 0 then (if a = 0 then .nan else if 0 < a then .posInf else .negInf)
      else .num (a / b)
  | .num _, .posInf => .num 0
  | .num _, .negInf => .num 0
  | .posInf, .num a => if 0 ≤ a then .posInf else .negInf
  | .negInf, .num a => if 0 ≤ a then .negInf else .posInf
  | _, _ => .nan

/-- `Math.abs` on `JSNum`. -/
def jabs : JSNum → JSNum
  | .num a => .num |a|
  | .posInf => .posInf
  | .negInf => .posInf
  | .nan => .nan

/-- The JavaScript strict comparison x > y: false whenever NaN is involved. -/
def jgt : JSNum → JSNum → Bool
  | .num a, .num b => decide (b < a)
  | .num _, .posInf => false
  | .num _, .negInf => true
  | .posInf, .num _ => true
  | .negInf, .num _ => false
  | .posInf, .negInf => true
  | .negInf, .posInf => false
  | .posInf, .posInf => false
  | .negInf, .negInf => false
  | _, _ => false

/-- The JavaScript test x >= 0: false for NaN. -/
def jge0 : JSNum → Bool
  | .num a => decide (0 ≤ a)
  | .posInf => true
  | .negInf => false
  | .nan => false

/-- The zero-crossing count in `calculatePitchOptimized`: positions where
the sign test of a sample differs from that of its predecessor. -/
def countCrossings (sample : List JSNum) : Nat :=
  (sample.zip sample.tail).countP (fun pr => jge0 pr.2 != jge0 pr.1)

/-- `calculatePitchOptimized` from useVoiceAI: zero-crossing rate over the
first at most 2048 samples, against a 44100 Hz clock, scaled by 0.5. -/
def calculatePitchOptimized (audioData : List JSNum) : JSNum :=
  let sampleSize := min 2048 audioData.length
  let sample := audioData.take sampleSize
  let count := countCrossings sample
  let crossingRate :=
    jdiv (.num (count : ℚ)) (jdiv (.num (sampleSize : ℚ)) (.num 44100))
  jmul crossingRate (.num 0.5)

/-- `calculateFormantsOptimized` from useVoiceAI: two affine maps of the
mean absolute amplitude over the first at most 1024 samples. -/
def calculateFormantsOptimized (audioData : List JSNum) : JSNum × JSNum :=
  let samples := audioData.take (min 1024 audioData.length)
  let total := samples.foldl (fun s x => jadd s (jabs x)) (.num 0)
  let avgAmplitude := jdiv total (.num (samples.length : ℚ))
  (jadd (.num 500) (jmul avgAmplitude (.num 300)),
   jadd (.num 1200) (jmul avgAmplitude (.num 500)))

/-- The peak count in `calculateSpeechRateOptimized`: interior samples above
the 0.1 threshold and strictly above both neighbours. -/
def countPeaks (audioData : List JSNum) : Nat :=
  ((audioData.zip audioData.tail).zip audioData.tail.tail).countP
    (fun t => jgt t.1.2 (.num 0.1) && jgt t.1.2 t.1.1 && jgt t.1.2 t.2)

/-- `calculateSpeechRateOptimized` from useVoiceAI: peaks per second of
buffer duration, scaled by 0.5. -/
def calculateSpeechRateOptimized (audioData : List JSNum) : JSNum :=
  let peakCount := countPeaks audioData
  let duration := jdiv (.num (audioData.length : ℚ)) (.num 44100)
  jmul (jdiv (.num (peakCount : ℚ)) duration) (.num 0.5)

/-- `calculateIntensity` from useVoiceAI: 20 * log10(rms + 1e-10), with the
square root and base-10 logarithm host primitives as parameters. -/
def calculateIntensity (jsqrt jlog10 : JSNum → JSNum)
    (audioData : List JSNum) : JSNum :=
  let sumSquares := audioData.foldl (fun s x => jadd s (jmul x x)) (.num 0)
  let rms := jsqrt (jdiv sumSquares (.num (audioData.length : ℚ)))
  jmul (.num 20) (jlog10 (jadd rms (.num 1e-10)))

/-- `extractVoiceFeatures` from useVoiceAI on the success path (the audio
context is available): the seven heuristic features of a decoded sample
buffer. -/
def extractVoiceFeatures (jsqrt jlog10 : JSNum → JSNum)
    (audioData : List JSNum) : Features JSNum :=
  let pitch := calculatePitchOptimized audioData
  let intensity := calculateIntensity jsqrt jlog10 audioData
  let formants := calculateFormantsOptimized audioData
  let speechRate := calculateSpeechRateOptimized audioData
  let pitchVariance := jmul pitch (.num 0.1)
  let voiceQuality :=
    if jgt intensity (.num (-20)) then JSNum.num 0.8 else JSNum.num 0.4
  ⟨pitch, pitchVariance, intensity, formants.1, formants.2, speechRate,
    voiceQuality⟩

/-- A stand-in for the square root and logarithm host primitives that is
only ever applied to NaN in the empty-buffer run. -/
def nanFn : JSNum → JSNum := fun _ => .nan

/-- The all-zero feature vector the claim expects on an empty buffer. -/
def featuresZeroJS : Features JSNum :=
  ⟨.num 0, .num 0, .num 0, .num 0, .num 0, .num 0, .num 0⟩

/-- What the code actually produces on an empty buffer: every 0/0 turns
into NaN, and the NaN intensity fails the -20 test, leaving 0.4. -/
def featuresEmptyBufferJS : Features JSNum :=
  ⟨.nan, .nan, .nan, .nan, .nan, .nan, .num 0.4⟩

/-- C4 counterexample: on the empty buffer the extractor does not return
the all-zero feature vector; the divisions by a zero sample count produce
NaN and voiceQuality falls back to 0.4. -/
lemma calculatePitchOptimized_nil : calculatePitchOptimized [] = JSNum.nan := by
  norm_num [calculatePitchOptimized, countCrossings, jdiv, jmul]

lemma calculateFormantsOptimized_nil :
    calculateFormantsOptimized [] = (JSNum.nan, JSNum.nan) := by
  norm_num [calculateFormantsOptimized, jdiv, jadd, jmul]

lemma calculateSpeechRateOptimized_nil :
    calculateSpeechRateOptimized [] = JSNum.nan := by
  norm_num [calculateSpeechRateOptimized, countPeaks, jdiv, jmul]

theorem C4_counterexample :
    extractVoiceFeatures nanFn nanFn [] ≠ featuresZeroJS := by
  have h4 : calculateIntensity nanFn nanFn [] = JSNum.nan := rfl
  simp only [extractVoiceFeatures, h4, calculatePitchOptimized_nil,
    calculateFormantsOptimized_nil, calculateSpeechRateOptimized_nil]
  simp [featuresZeroJS, jmul, jgt]

/-- C4 (amended): on the empty buffer the extractor does not throw, but
instead of zeroes it returns NaN for pitch, pitch variance, intensity, both
formants and speech rate (each a 0/0), and 0.4 for voice quality, for any
square root and logarithm primitives that propagate NaN. -/
theorem C4_empty_buffer (jsqrt jlog10 : JSNum → JSNum)
    (hs : jsqrt JSNum.nan = JSNum.nan) (hl : jlog10 JSNum.nan = JSNum.nan) :
    extractVoiceFeatures jsqrt jlog10 [] = featuresEmptyBufferJS := by
  have h4 : calculateIntensity jsqrt jlog10 [] = JSNum.nan := by
    unfold calculateIntensity
    simp only [List.foldl_nil, List.length_nil, Nat.cast_zero]
    rw [show jdiv (JSNum.num 0) (JSNum.num 0) = JSNum.nan from by simp [jdiv], hs]
    rw [show jadd JSNum.nan (JSNum.num 1e-10) = JSNum.nan from rfl, hl]
    rfl
  simp only [extractVoiceFeatures, h4, calculatePitchOptimized_nil,
    calculateFormantsOptimized_nil, calculateSpeechRateOptimized_nil]
  simp [featuresEmptyBufferJS, jmul, jgt]

theorem C4_empty_buffer_witness :
    (nanFn JSNum.nan = JSNum.nan ∧ nanFn JSNum.nan = JSNum.nan) ∧
    extractVoiceFeatures nanFn nanFn [] = featuresEmptyBufferJS :=
  ⟨⟨rfl, rfl⟩, C4_empty_buffer nanFn nanFn rfl rfl⟩
